import Mathlib

/-!
Verification of discord-media-saver against its specification.

The development embeds, in order:
* the LRU duplicate cache (`DuplicateDetectionService.addToCache`),
* the duplicate-detection service state machine (`init`, `isDuplicate`,
  `recordFile`, upsert into the durable store),
* the media classification and size filter (`FileUtils.isMediaFile`,
  `FileUtils.isVideoFile`, `Config.isFileSizeValid`,
  `MediaProcessor.processAttachments`, `MediaProcessor.downloadAttachment`),
* the gateway client handlers (`DiscordClient.handleMessage`,
  `handleDispatch`, `sendHeartbeat`, the socket close handler, `cleanup`).

Digests and file contents are abstracted to types with decidable equality;
the JS `Map` `recentHashes` is embedded as its key list in insertion order
(head = oldest = least recently used, last = newest).
-/

namespace DiscordMediaSaver

namespace Dedup

variable {α : Type} [DecidableEq α]

/-- Embedding of `DuplicateDetectionService.addToCache` (MediaProcessor.js
lines 241-257): remove the hash if already present (for LRU ordering), append
it at the most-recent end, then evict the oldest entry if the size exceeds
`maxCacheSize`. -/
def addToCache (maxCacheSize : Nat) (cache : List α) (hash : α) : List α :=
  let c1 := if hash ∈ cache then cache.erase hash else cache
  let c2 := c1 ++ [hash]
  if maxCacheSize < c2.length then c2.tail else c2

/-- The cache contents after a sequence of insertions starting from the
empty cache. -/
def cacheAfter (maxCacheSize : Nat) (inserts : List α) : List α :=
  inserts.foldl (addToCache maxCacheSize) []

/-- The `min(n, C)` most-recently-inserted distinct digests of an insertion
sequence, newest last: `dedup` keeps, for each distinct digest, its last
occurrence (in order of last occurrence), and `drop` keeps the newest `C`.
This is the specification-side description the cache is compared against. -/
def mruDigests (maxCacheSize : Nat) (inserts : List α) : List α :=
  inserts.dedup.drop (inserts.dedup.length - maxCacheSize)

end Dedup

/-- Outcome of an external I/O action that either yields a value or throws. -/
inductive Outcome (β : Type)
  | ok (value : β)
  | thrown
deriving DecidableEq

namespace DuplicateDetectionService

variable {α : Type} [DecidableEq α]

/-- A row of the durable `FileHash` table (schema: `filename` unique key,
`hash` digest, `fileSize`). -/
structure FileHashRow (α : Type) where
  filename : String
  hash : α
  fileSize : Nat
deriving DecidableEq

/-- The fields of `DuplicateDetectionService` together with the durable table
it talks to: the Prisma client is abstracted to whether it is set
(`prisma !== null`), the JS `Map` `recentHashes` to its key list (oldest
first), and the PostgreSQL table to its row list in insertion order. -/
structure ServiceState (α : Type) where
  prismaSet : Bool
  isEnabled : Bool
  recentHashes : List α
  maxCacheSize : Nat
  fileHashTable : List (FileHashRow α)
deriving DecidableEq

/-- A fresh service as built by `new DuplicateDetectionService(maxCacheSize)`,
facing a durable table holding `table`. -/
def ServiceState.fresh (maxCacheSize : Nat) (table : List (FileHashRow α)) :
    ServiceState α :=
  { prismaSet := false, isEnabled := false, recentHashes := []
    maxCacheSize := maxCacheSize, fileHashTable := table }

/-- Embedding of `DuplicateDetectionService.init` (MediaProcessor.js lines
111-138): without a database URL the service stays disabled; with one, the
connection test either enables the service or, on failure, clears the client
and disables it. `connectOk` is the outcome of `$connect`. -/
def init (svc : ServiceState α) (databaseUrl : Option String) (connectOk : Bool) :
    ServiceState α :=
  match databaseUrl with
  | none => svc
  | some _ =>
    if connectOk then { svc with prismaSet := true, isEnabled := true }
    else { svc with prismaSet := false, isEnabled := false }

/-- `isActive` (MediaProcessor.js lines 300-302). -/
def isActive (svc : ServiceState α) : Bool :=
  svc.isEnabled

/-- Prisma `fileHash.upsert` keyed on the unique `filename`: update the row
in place when the filename exists, otherwise append a new row. -/
def upsertRow (table : List (FileHashRow α)) (filename : String) (hash : α)
    (fileSize : Nat) : List (FileHashRow α) :=
  if table.any (fun r => r.filename == filename) then
    table.map (fun r =>
      if r.filename == filename then { r with hash := hash, fileSize := fileSize } else r)
  else table ++ [⟨filename, hash, fileSize⟩]

/-- Embedding of `DuplicateDetectionService.recordFile` (MediaProcessor.js
lines 207-236): stat the file (may throw — caught, leaving everything
unchanged), add the hash to the cache, then upsert into the database when the
client is set (a thrown upsert is caught, leaving the table unchanged). -/
def recordFile (svc : ServiceState α) (filename : String) (hash : α)
    (statOutcome : Outcome Nat) (upsertOk : Bool) : ServiceState α :=
  match statOutcome with
  | .thrown => svc
  | .ok fileSize =>
    let svc1 := { svc with
      recentHashes := Dedup.addToCache svc.maxCacheSize svc.recentHashes hash }
    if svc1.prismaSet then
      if upsertOk then
        { svc1 with fileHashTable := upsertRow svc1.fileHashTable filename hash fileSize }
      else svc1
    else svc1

/-- Embedding of `DuplicateDetectionService.isDuplicate` (MediaProcessor.js
lines 166-202). `hashOutcome` is the digest computation of the just-written
file, `queryOk` whether the `findFirst` database query succeeds (its result
comes from the table model), `statOutcome`/`upsertOk` the effects inside
`recordFile`. Any thrown step is caught and answered with `false`. -/
def isDuplicate (svc : ServiceState α) (filename : String)
    (hashOutcome : Outcome α) (queryOk : Bool)
    (statOutcome : Outcome Nat) (upsertOk : Bool) : Bool × ServiceState α :=
  if !svc.isEnabled then (false, svc)
  else
    match hashOutcome with
    | .thrown => (false, svc)
    | .ok fileHash =>
      if fileHash ∈ svc.recentHashes then (true, svc)
      else if svc.prismaSet then
        if !queryOk then (false, svc)
        else
          match svc.fileHashTable.find? (fun r => r.hash == fileHash) with
          | some _ =>
            (true, { svc with recentHashes :=
              Dedup.addToCache svc.maxCacheSize svc.recentHashes fileHash })
          | none => (false, recordFile svc filename fileHash statOutcome upsertOk)
      else (false, recordFile svc filename fileHash statOutcome upsertOk)

end DuplicateDetectionService

namespace MediaProcessor

variable {α : Type} [DecidableEq α]

/-- The state `MediaProcessor.downloadAttachment` touches: the file paths
present on disk and the duplicate-detection service. -/
structure PipelineState (α : Type) where
  files : List String
  svc : DuplicateDetectionService.ServiceState α
deriving DecidableEq

/-- The four exits of `downloadAttachment`, matching its log lines. -/
inductive DownloadOutcome
  | alreadyExists
  | transferFailed
  | duplicateDiscarded
  | saved
deriving DecidableEq

/-- Embedding of the body of `MediaProcessor.downloadAttachment`
(MediaProcessor.ts lines 189-222): skip when the destination already exists;
stream the bytes to `filepath` (`transferOk` its outcome; a failed transfer
removes the partial file); then, when duplicate detection is active, ask
`isDuplicate` and delete the just-written file when it reports a duplicate. -/
def downloadAttachment (st : PipelineState α) (filepath filename : String)
    (transferOk : Bool) (hashOutcome : Outcome α) (queryOk : Bool)
    (statOutcome : Outcome Nat) (upsertOk : Bool) :
    PipelineState α × DownloadOutcome :=
  if filepath ∈ st.files then (st, .alreadyExists)
  else if !transferOk then (st, .transferFailed)
  else
    let files1 := st.files ++ [filepath]
    if DuplicateDetectionService.isActive st.svc then
      let res := DuplicateDetectionService.isDuplicate st.svc filename
        hashOutcome queryOk statOutcome upsertOk
      if res.1 then
        ({ files := files1.erase filepath, svc := res.2 }, .duplicateDiscarded)
      else
        ({ files := files1, svc := res.2 }, .saved)
    else
      ({ files := files1, svc := st.svc }, .saved)

end MediaProcessor

/-- An attachment descriptor as consumed from the wire
(`url, filename, content_type, size`). `content_type` is optional on the
wire; `authorId` is carried by the enclosing message. -/
structure Attachment where
  url : String
  filename : String
  contentType : Option String
  size : Nat
deriving DecidableEq

namespace FileUtils

/-- `FileUtils.isMediaFile` (FileUtils.ts lines 12-25). JS string operations
are embedded on the character list of the string: `toLowerCase` as a
`Char.toLower` map, `endsWith`/`startsWith` as suffix/prefix tests; a JS
string is falsy exactly when empty or absent. -/
def isMediaFile (filename : String) (contentType : Option String) : Bool :=
  let mediaExtensions : List String :=
    [".jpg", ".jpeg", ".png", ".gif", ".webp", ".mp4", ".mov", ".avi", ".mkv", ".webm"]
  let hasMediaExtension := mediaExtensions.any
    (fun ext => ext.data.isSuffixOf (filename.data.map Char.toLower))
  let hasMediaContentType := match contentType with
    | some ct => if ct = "" then false else
        ["image/", "video/"].any (fun t => t.data.isPrefixOf ct.data)
    | none => false
  hasMediaExtension || hasMediaContentType

/-- `FileUtils.isVideoFile` (FileUtils.ts lines 30-43). -/
def isVideoFile (filename : String) (contentType : Option String) : Bool :=
  let videoExtensions : List String := [".mp4", ".mov", ".avi", ".mkv", ".webm"]
  let hasVideoExtension := videoExtensions.any
    (fun ext => ext.data.isSuffixOf (filename.data.map Char.toLower))
  let hasVideoContentType := match contentType with
    | some ct => if ct = "" then false else
        ["video/"].any (fun t => t.data.isPrefixOf ct.data)
    | none => false
  hasVideoExtension || hasVideoContentType

end FileUtils

/-- The configuration fields the verified components read (Config as
concatenated into HealthCheckServer.ts lines 256-537): monitored channels,
blacklisted users, per-class size bounds, token. Read-only after startup. -/
structure Config where
  token : String
  channelIds : List String
  blacklistedUserIds : List String
  minImageSize : Nat
  maxImageSize : Nat
  minVideoSize : Nat
  maxVideoSize : Nat
deriving DecidableEq

namespace Config

/-- `Config.isMonitoredChannel`. -/
def isMonitoredChannel (cfg : Config) (channelId : String) : Bool :=
  cfg.channelIds.contains channelId

/-- `Config.isUserBlacklisted` (HealthCheckServer.ts lines 534-536). -/
def isUserBlacklisted (cfg : Config) (userId : String) : Bool :=
  cfg.blacklistedUserIds.contains userId

/-- `Config.isFileSizeValid` (HealthCheckServer.ts lines 511-517). -/
def isFileSizeValid (cfg : Config) (fileSize : Nat) (isVideo : Bool) : Bool :=
  if isVideo then
    decide (cfg.minVideoSize ≤ fileSize) && decide (fileSize ≤ cfg.maxVideoSize)
  else
    decide (cfg.minImageSize ≤ fileSize) && decide (fileSize ≤ cfg.maxImageSize)

/-- `Config.getDiscordIntents`: `32768 + 1 + 512`. -/
def getDiscordIntents : Nat := 32768 + 1 + 512

/-- `Config.getReconnectDelay`: 5000 ms. -/
def getReconnectDelay : Nat := 5000

/-- `Config.getIdentifyDelay`: 2000 ms. -/
def getIdentifyDelay : Nat := 2000

end Config

namespace MediaProcessor

variable {α : Type} [DecidableEq α]

/-- The three per-attachment exits of the gate at the top of
`MediaProcessor.processAttachments`. -/
inductive AttachmentDecision
  | skippedNotMedia
  | skippedSize
  | download
deriving DecidableEq

/-- The per-attachment gate of `MediaProcessor.processAttachments`
(MediaProcessor.ts lines 160-184): skip non-media attachments, then skip
attachments whose declared size is outside the bounds of their class (video
vs image); only the rest reach `downloadAttachment`. -/
def processDecision (cfg : Config) (att : Attachment) : AttachmentDecision :=
  if ¬ FileUtils.isMediaFile att.filename att.contentType then .skippedNotMedia
  else if ¬ cfg.isFileSizeValid att.size
      (FileUtils.isVideoFile att.filename att.contentType) then .skippedSize
  else .download

/-- One loop iteration of `processAttachments`: `downloadAttachment` (the
only writer of files) runs only when the gate answers `download`. -/
def processOne (cfg : Config) (st : PipelineState α) (att : Attachment)
    (filepath filename : String) (transferOk : Bool) (hashOutcome : Outcome α)
    (queryOk : Bool) (statOutcome : Outcome Nat) (upsertOk : Bool) :
    PipelineState α × Option DownloadOutcome :=
  match processDecision cfg att with
  | .download =>
    let r := downloadAttachment st filepath filename transferOk hashOutcome
      queryOk statOutcome upsertOk
    (r.1, some r.2)
  | _ => (st, none)

end MediaProcessor

namespace DiscordClient

/-- WebSocket `readyState` values. -/
inductive ReadyState
  | connecting
  | openState
  | closing
  | closed
deriving DecidableEq

/-- The mutable fields of `DiscordClient` (DiscordClient.ts lines 23-26),
with the socket reference abstracted to whether it is set and its
`readyState`. -/
structure ClientState where
  wsSet : Bool
  readyState : ReadyState
  heartbeatTimer : Bool
  sessionId : Option String
  sequenceNumber : Option Int
deriving DecidableEq

/-- A frame sent over the socket. -/
inductive Frame
  | heartbeat (d : Option Int)
  | identify (token : String) (intents : Nat)
deriving DecidableEq

/-- The effects a handler performs, in order: immediate sends, timer
(re)starts, `setTimeout` schedulings, socket closing, and handing
attachments to the media pipeline. -/
inductive Action
  | send (f : Frame)
  | startHeartbeatTimer (intervalMs : Nat)
  | scheduleConnect (delayMs : Nat)
  | scheduleIdentify (delayMs : Nat)
  | closeSocket
  | processAttachments (atts : List Attachment) (username : String) (timestamp : String)
deriving DecidableEq

/-- Payload of an inbound gateway frame, one arm per consumed opcode
(10 hello, 11 heartbeat-ack, 0 dispatch, 1 heartbeat request, 7 reconnect,
9 invalid session). -/
inductive DispatchEvent
  | ready (username sessionId : String)
  | messageCreate (channelId authorId authorUsername : String)
      (attachments : List Attachment) (timestamp : String)
  | resumed
  | other (t : String)
deriving DecidableEq

inductive GatewayPayload
  | hello (heartbeatInterval : Nat)
  | heartbeatAck
  | dispatch (t : Option DispatchEvent)
  | heartbeatRequest
  | reconnect
  | invalidSession
  | unknownOp (op : Nat)
deriving DecidableEq

/-- An inbound gateway frame: payload plus optional sequence number. -/
structure GatewayMessage where
  payload : GatewayPayload
  s : Option Int
deriving DecidableEq

/-- The environment closing the socket (close event precondition). -/
def socketClosed (s : ClientState) : ClientState :=
  { s with readyState := .closed }

/-- `DiscordClient.sendHeartbeat` (DiscordClient.ts lines 148-155): sends
`{op:1, d: sequenceNumber}` only when the socket reference is set and its
readyState is OPEN. -/
def sendHeartbeat (s : ClientState) : List Action :=
  if s.wsSet = true ∧ s.readyState = .openState then
    [.send (.heartbeat s.sequenceNumber)]
  else []

/-- `DiscordClient.identify` (lines 160-178): sends the identify payload
through `this.ws?.send` — dropped only when the reference is null. -/
def identifyActions (cfg : Config) (s : ClientState) : List Action :=
  if s.wsSet = true then [.send (.identify cfg.token Config.getDiscordIntents)]
  else []

/-- `DiscordClient.startHeartbeat` (lines 133-143): clear any previous timer
and start a repeating one with the given period. -/
def startHeartbeat (s : ClientState) (intervalMs : Nat) : ClientState × List Action :=
  ({ s with heartbeatTimer := true }, [.startHeartbeatTimer intervalMs])

/-- `DiscordClient.handleDispatch` (lines 107-128): READY records the session
id; MESSAGE_CREATE hands the attachments to the media pipeline when the
channel is monitored and the attachment list is non-empty. -/
def handleDispatch (cfg : Config) (s : ClientState) (e : DispatchEvent) :
    ClientState × List Action :=
  match e with
  | .ready _ sessionId => ({ s with sessionId := some sessionId }, [])
  | .messageCreate channelId _ authorUsername attachments timestamp =>
    if cfg.isMonitoredChannel channelId = true ∧ 0 < attachments.length then
      (s, [.processAttachments attachments authorUsername timestamp])
    else (s, [])
  | .resumed => (s, [])
  | .other _ => (s, [])

/-- `DiscordClient.handleMessage` (lines 63-102): capture the sequence
number, then act on the opcode. On hello the heartbeat timer is started and
`identify()` is called synchronously; on invalid session `identify` is
re-scheduled after `getIdentifyDelay()`. -/
def handleMessage (cfg : Config) (s : ClientState) (m : GatewayMessage) :
    ClientState × List Action :=
  let s1 := match m.s with
    | some seq => { s with sequenceNumber := some seq }
    | none => s
  match m.payload with
  | .hello interval =>
    let r := startHeartbeat s1 interval
    (r.1, r.2 ++ identifyActions cfg r.1)
  | .heartbeatAck => (s1, [])
  | .dispatch t =>
    match t with
    | some e => handleDispatch cfg s1 e
    | none => (s1, [])
  | .heartbeatRequest => (s1, sendHeartbeat s1)
  | .reconnect => (s1, if s1.wsSet = true then [.closeSocket] else [])
  | .invalidSession =>
    ({ s1 with sessionId := none }, [.scheduleIdentify Config.getIdentifyDelay])
  | .unknownOp _ => (s1, [])

/-- The `close` handler registered in `connect` (lines 49-53): log, then
schedule a fresh `connect()` after `getReconnectDelay()`. It does not touch
the heartbeat timer. -/
def onClose (s : ClientState) : ClientState × List Action :=
  (s, [.scheduleConnect Config.getReconnectDelay])

/-- `DiscordClient.cleanup` (lines 183-190): clear the heartbeat timer if
set, then close the socket if set. The close handler stays attached. -/
def cleanup (s : ClientState) : ClientState × List Action :=
  let s1 := if s.heartbeatTimer = true then { s with heartbeatTimer := false } else s
  (s1, if s1.wsSet = true then [.closeSocket] else [])

end DiscordClient

/-! ### Theorems -/

namespace Dedup

variable {α : Type} [DecidableEq α]

theorem dedup_concat (l : List α) (a : α) :
    (l ++ [a]).dedup = l.dedup.erase a ++ [a] := by
  induction l with
  | nil => simp
  | cons x l ih =>
    by_cases hxa : x = a
    · subst hxa
      have hmem : x ∈ l ++ [x] := by simp
      rw [List.cons_append, List.dedup_cons_of_mem hmem, ih]
      by_cases hxl : x ∈ l
      · rw [List.dedup_cons_of_mem hxl]
      · rw [List.dedup_cons_of_not_mem hxl, List.erase_cons_head,
          List.erase_of_not_mem (by simpa using hxl)]
    · by_cases hxl : x ∈ l
      · have hmem : x ∈ l ++ [a] := by simp [hxl]
        rw [List.cons_append, List.dedup_cons_of_mem hmem, ih,
          List.dedup_cons_of_mem hxl]
      · have hmem : x ∉ l ++ [a] := by simp [hxl, hxa]
        rw [List.cons_append, List.dedup_cons_of_not_mem hmem, ih,
          List.dedup_cons_of_not_mem hxl,
          List.erase_cons_tail, List.cons_append]
        simp [hxa]
theorem erase_drop_comm (L : List α) (hnd : L.Nodup) (k : Nat) (d : α)
    (hd : d ∈ L.drop k) : (L.drop k).erase d = (L.erase d).drop k := by
  have hk : k < L.length := by
    by_contra h
    rw [List.drop_eq_nil_of_le (by omega)] at hd
    exact absurd hd (List.not_mem_nil d)
  have hlenA : (L.take k).length = k := by
    rw [List.length_take]; omega
  have hdA : d ∉ L.take k := by
    have hnd2 : (L.take k ++ L.drop k).Nodup := by
      rw [List.take_append_drop]; exact hnd
    rcases List.nodup_append.mp hnd2 with ⟨_, _, hdisj⟩
    intro hmem
    exact hdisj hmem hd
  have hsplit : L.erase d = L.take k ++ (L.drop k).erase d := by
    conv_lhs => rw [← List.take_append_drop k L]
    exact List.erase_append_right _ hdA
  rw [hsplit, List.drop_left' hlenA]

theorem addToCache_drop_lru (C : Nat) (L : List α) (hnd : L.Nodup) (d : α) :
    addToCache C (L.drop (L.length - C)) d
      = (L.erase d ++ [d]).drop ((L.erase d ++ [d]).length - C) := by
  by_cases hmem : d ∈ L.drop (L.length - C)
  · -- the digest is still in the cache: it is erased and re-appended, no eviction
    have hkn : L.length - C < L.length := by
      by_contra h
      rw [List.drop_eq_nil_of_le (by omega)] at hmem
      exact absurd hmem (List.not_mem_nil d)
    have hC1 : 1 ≤ C := by omega
    have hdL : d ∈ L := List.mem_of_mem_drop hmem
    have hn1 : 1 ≤ L.length := by omega
    have hlenE : (L.erase d).length = L.length - 1 := List.length_erase_of_mem hdL
    have hc2len : (((L.drop (L.length - C)).erase d) ++ [d]).length = L.length - (L.length - C) := by
      rw [List.length_append, List.length_erase_of_mem hmem, List.length_drop]
      simp
      omega
    simp only [addToCache, if_pos hmem]
    rw [if_neg (by rw [hc2len]; omega)]
    have hMlen : (L.erase d ++ [d]).length - C = L.length - C := by
      rw [List.length_append, hlenE]; simp; omega
    rw [hMlen, List.drop_append_eq_append_drop]
    have h2 : L.length - C - (L.erase d).length = 0 := by omega
    rw [h2, List.drop_zero, erase_drop_comm L hnd _ d hmem]
  · simp only [addToCache, if_neg hmem]
    by_cases hCn : L.length < C
    · -- cache below capacity: no eviction, nothing was ever evicted
      have hk0 : L.length - C = 0 := by omega
      rw [hk0, List.drop_zero] at hmem ⊢
      rw [List.erase_of_not_mem hmem]
      have hlen : (L ++ [d]).length = L.length + 1 := by simp
      rw [if_neg (by rw [hlen]; omega), hlen]
      have h0 : L.length + 1 - C = 0 := by omega
      rw [h0, List.drop_zero]
    · -- cache at capacity: the oldest entry is evicted
      have hCle : C ≤ L.length := by omega
      have hclen : (L.drop (L.length - C)).length = C := by
        rw [List.length_drop]; omega
      rw [if_pos (by simp only [List.length_append, hclen, List.length_singleton]; omega)]
      rcases Nat.eq_zero_or_pos C with hC0 | hC1
      · -- capacity zero: everything is evicted immediately
        subst hC0
        have hdropL : L.drop (L.length - 0) = ([] : List α) := by
          rw [Nat.sub_zero, List.drop_length]
        rw [hdropL, List.nil_append, List.tail_cons, Nat.sub_zero, List.drop_length]
      · -- capacity at least one: result is cache.tail ++ [d]
        obtain ⟨x, rest, hxr⟩ : ∃ x rest, L.drop (L.length - C) = x :: rest := by
          cases h : L.drop (L.length - C) with
          | nil => rw [h] at hclen; simp at hclen; omega
          | cons x rest => exact ⟨x, rest, rfl⟩
        have hrest : rest = L.drop (L.length - C + 1) := by
          have h := List.tail_drop L (L.length - C)
          rw [hxr] at h
          simpa using h
        rw [hxr]
        simp only [List.cons_append, List.tail_cons]
        rw [hrest]
        by_cases hdL : d ∈ L
        · -- d sits in the evicted prefix of L
          have hdtake : d ∈ L.take (L.length - C) := by
            have hin : d ∈ L.take (L.length - C) ++ L.drop (L.length - C) := by
              rw [List.take_append_drop]; exact hdL
            rcases List.mem_append.mp hin with h | h
            · exact h
            · exact absurd h hmem
          have hkn : L.length - C < L.length := by omega
          have htlen : (L.take (L.length - C)).length = L.length - C := by
            rw [List.length_take]; omega
          have hktake : 1 ≤ L.length - C := by
            by_contra h
            have h0 : L.length - C = 0 := by omega
            rw [h0, List.take_zero] at hdtake
            exact absurd hdtake (List.not_mem_nil d)
          have hlenE : (L.erase d).length = L.length - 1 := List.length_erase_of_mem hdL
          have hEsplit : L.erase d = (L.take (L.length - C)).erase d ++ L.drop (L.length - C) := by
            conv_lhs => rw [← List.take_append_drop (L.length - C) L]
            exact List.erase_append_left _ hdtake
          have htelen : ((L.take (L.length - C)).erase d).length = L.length - C - 1 := by
            rw [List.length_erase_of_mem hdtake, htlen]
          have hErase : (L.erase d).drop (L.length - C) = L.drop (L.length - C + 1) := by
            rw [hEsplit, List.drop_append_eq_append_drop,
              List.drop_eq_nil_of_le (by omega), htelen, List.nil_append]
            have h3 : L.length - C - (L.length - C - 1) = 1 := by omega
            rw [h3, List.drop_drop, Nat.add_comm]
          have hMlen : (L.erase d ++ [d]).length - C = L.length - C := by
            rw [List.length_append, hlenE]; simp; omega
          have h2 : L.length - C - (L.erase d).length = 0 := by omega
          rw [hMlen, List.drop_append_eq_append_drop, h2, List.drop_zero, hErase]
        · -- d is new to L
          rw [List.erase_of_not_mem hdL]
          have hMlen : (L ++ [d]).length - C = L.length - C + 1 := by simp; omega
          have h4 : L.length - C + 1 - L.length = 0 := by omega
          rw [hMlen, List.drop_append_eq_append_drop, h4, List.drop_zero]

theorem cacheAfter_eq_mruDigests (C : Nat) (inserts : List α) :
    cacheAfter C inserts = mruDigests C inserts := by
  induction inserts using List.reverseRecOn with
  | nil => simp [cacheAfter, mruDigests]
  | append_singleton l d ih =>
    have hfold : cacheAfter C (l ++ [d]) = addToCache C (cacheAfter C l) d := by
      simp only [cacheAfter, List.foldl_append, List.foldl_cons, List.foldl_nil]
    rw [hfold, ih]
    show addToCache C (mruDigests C l) d = mruDigests C (l ++ [d])
    rw [mruDigests, mruDigests, dedup_concat]
    exact addToCache_drop_lru C l.dedup l.nodup_dedup d

/-- C2: starting from the empty cache with configured capacity `C`, after each
insertion the cache holds exactly the `min(n, C)` most-recently-inserted
distinct digests (`n` the number of distinct digests inserted so far), in
least-to-most-recently-used order; in particular the cache size never
exceeds `C`. -/
theorem cache_retains_most_recent_distinct (C : Nat) (inserts : List α) :
    cacheAfter C inserts = mruDigests C inserts
    ∧ (cacheAfter C inserts).length = min inserts.dedup.length C
    ∧ (cacheAfter C inserts).length ≤ C := by
  have hlen : (cacheAfter C inserts).length = min inserts.dedup.length C := by
    rw [cacheAfter_eq_mruDigests, mruDigests, List.length_drop]
    omega
  exact ⟨cacheAfter_eq_mruDigests C inserts, hlen, by omega⟩

/-- C9: re-inserting a digest already present in a cache within capacity
leaves the cache size unchanged, moves that digest to the most-recently-used
(last) position, and leaves the least-recently-used of the other entries at
the front, i.e. as the next eviction candidate. -/
theorem reinsert_refreshes_recency (C : Nat) (cache : List α) (d : α)
    (hmem : d ∈ cache) (hlen : cache.length ≤ C) :
    addToCache C cache d = cache.erase d ++ [d]
    ∧ (addToCache C cache d).length = cache.length
    ∧ (addToCache C cache d).getLast? = some d := by
  have h1 : 1 ≤ cache.length := List.length_pos.mpr (List.ne_nil_of_mem hmem)
  have hlenE : (cache.erase d).length = cache.length - 1 :=
    List.length_erase_of_mem hmem
  have heq : addToCache C cache d = cache.erase d ++ [d] := by
    simp only [addToCache, if_pos hmem]
    rw [if_neg (by rw [List.length_append, hlenE]; simp; omega)]
  refine ⟨heq, ?_, ?_⟩
  · rw [heq, List.length_append, hlenE]; simp; omega
  · rw [heq, List.getLast?_concat]

/-- Closed witness for `reinsert_refreshes_recency` at a concrete cache. -/
theorem reinsert_refreshes_recency_witness :
    addToCache 3 [1, 2, 3] 2 = [1, 2, 3].erase 2 ++ [2]
    ∧ (addToCache 3 [1, 2, 3] 2).length = [1, 2, 3].length
    ∧ (addToCache 3 [1, 2, 3] 2).getLast? = some 2 :=
  reinsert_refreshes_recency 3 [1, 2, 3] 2 (by decide) (by decide)

theorem erase_concat_self (l : List α) (a : α) (h : a ∉ l) :
    (l ++ [a]).erase a = l := by
  rw [List.erase_append_right _ h, List.erase_cons_head, List.append_nil]

end Dedup

namespace DuplicateDetectionService

variable {α : Type} [DecidableEq α]

theorem isDuplicate_preserves_enablement (svc : ServiceState α)
    (filename : String) (hashOutcome : Outcome α) (queryOk : Bool)
    (statOutcome : Outcome Nat) (upsertOk : Bool) :
    (isDuplicate svc filename hashOutcome queryOk statOutcome upsertOk).2.isEnabled
        = svc.isEnabled
    ∧ (isDuplicate svc filename hashOutcome queryOk statOutcome upsertOk).2.prismaSet
        = svc.prismaSet := by
  unfold isDuplicate recordFile
  repeat' split
  all_goals simp_all

/-- C3: every `isDuplicate` call answers `false` without propagating an error
when the service is disabled, when the digest computation throws, or when the
store query throws (each leaving the service untouched); no call changes
`isEnabled` or `prismaSet`, and a connection failure during `init` leaves the
service disabled with no client — so no later call re-attempts the
connection. -/
theorem isDuplicate_degrades_safely (svc : ServiceState α) (filename : String)
    (hashOutcome : Outcome α) (queryOk : Bool) (statOutcome : Outcome Nat)
    (upsertOk : Bool) (fileHash : α) (u : String) :
    (svc.isEnabled = false →
      isDuplicate svc filename hashOutcome queryOk statOutcome upsertOk = (false, svc))
    ∧ isDuplicate svc filename .thrown queryOk statOutcome upsertOk = (false, svc)
    ∧ (fileHash ∉ svc.recentHashes → svc.prismaSet = true →
      isDuplicate svc filename (.ok fileHash) false statOutcome upsertOk = (false, svc))
    ∧ (isDuplicate svc filename hashOutcome queryOk statOutcome upsertOk).2.isEnabled
        = svc.isEnabled
    ∧ (isDuplicate svc filename hashOutcome queryOk statOutcome upsertOk).2.prismaSet
        = svc.prismaSet
    ∧ (init svc (some u) false).isEnabled = false
    ∧ (init svc (some u) false).prismaSet = false := by
  refine ⟨?_, ?_, ?_, (isDuplicate_preserves_enablement svc filename hashOutcome
    queryOk statOutcome upsertOk).1,
    (isDuplicate_preserves_enablement svc filename hashOutcome
    queryOk statOutcome upsertOk).2, by simp [init], by simp [init]⟩
  · intro hdis
    unfold isDuplicate
    rw [hdis]
    simp
  · unfold isDuplicate
    split
    · rfl
    · rfl
  · intro hrec hprisma
    unfold isDuplicate
    simp [hrec, hprisma]

end DuplicateDetectionService

namespace MediaProcessor

variable {α : Type} [DecidableEq α]

/-- C1: with duplicate detection active and a configured store, downloading
bytes whose digest is already recorded (present in the duplicate cache or in
a store row) writes the file, detects it as a duplicate (in the cache or in
the store by digest), deletes it, and inserts no row: the final filesystem
and the final store equal the initial ones, so the store row count does not
increase. -/
theorem duplicate_download_discarded (st : PipelineState α)
    (filepath filename : String) (fileHash : α)
    (statOutcome : Outcome Nat) (upsertOk : Bool)
    (hact : st.svc.isEnabled = true)
    (hstore : st.svc.prismaSet = true)
    (hrecorded : fileHash ∈ st.svc.recentHashes
      ∨ ∃ r ∈ st.svc.fileHashTable, r.hash = fileHash)
    (hnew : filepath ∉ st.files) :
    (downloadAttachment st filepath filename true (.ok fileHash) true
      statOutcome upsertOk).2 = .duplicateDiscarded
    ∧ (downloadAttachment st filepath filename true (.ok fileHash) true
      statOutcome upsertOk).1.files = st.files
    ∧ (downloadAttachment st filepath filename true (.ok fileHash) true
      statOutcome upsertOk).1.svc.fileHashTable = st.svc.fileHashTable := by
  have hdup : (DuplicateDetectionService.isDuplicate st.svc filename
      (.ok fileHash) true statOutcome upsertOk).1 = true
      ∧ (DuplicateDetectionService.isDuplicate st.svc filename
      (.ok fileHash) true statOutcome upsertOk).2.fileHashTable
        = st.svc.fileHashTable := by
    unfold DuplicateDetectionService.isDuplicate
    by_cases hrec : fileHash ∈ st.svc.recentHashes
    · simp [hact, hrec]
    · rcases hrecorded with h | ⟨r, hr, hhash⟩
      · contradiction
      · have hfind : (st.svc.fileHashTable.find?
            (fun row => row.hash == fileHash)).isSome := by
          rw [List.find?_isSome]
          exact ⟨r, hr, by simp [hhash]⟩
        obtain ⟨row, hrow⟩ := Option.isSome_iff_exists.mp hfind
        simp [hact, hrec, hstore, hrow]
  unfold downloadAttachment
  rw [if_neg hnew]
  simp [DuplicateDetectionService.isActive, hact, hdup.1, hdup.2,
    Dedup.erase_concat_self st.files filepath hnew]

/-- Closed witness for `duplicate_download_discarded`: a store row and the
cache both already hold digest `7`; re-downloading bytes with digest `7`
discards the file and leaves the single-row store unchanged. -/
theorem duplicate_download_discarded_witness :
    (downloadAttachment (α := Nat)
      ⟨[], ⟨true, true, [7], 10, [⟨"a.png", 7, 5⟩]⟩⟩ "2024/01/01/b.png" "b.png"
      true (.ok 7) true (.ok 5) true).2 = .duplicateDiscarded
    ∧ (downloadAttachment (α := Nat)
      ⟨[], ⟨true, true, [7], 10, [⟨"a.png", 7, 5⟩]⟩⟩ "2024/01/01/b.png" "b.png"
      true (.ok 7) true (.ok 5) true).1.files
        = (⟨[], ⟨true, true, [7], 10, [⟨"a.png", 7, 5⟩]⟩⟩ :
            PipelineState Nat).files
    ∧ (downloadAttachment (α := Nat)
      ⟨[], ⟨true, true, [7], 10, [⟨"a.png", 7, 5⟩]⟩⟩ "2024/01/01/b.png" "b.png"
      true (.ok 7) true (.ok 5) true).1.svc.fileHashTable
        = (⟨[], ⟨true, true, [7], 10, [⟨"a.png", 7, 5⟩]⟩⟩ :
            PipelineState Nat).svc.fileHashTable :=
  duplicate_download_discarded ⟨[], ⟨true, true, [7], 10, [⟨"a.png", 7, 5⟩]⟩⟩
    "2024/01/01/b.png" "b.png" 7 (.ok 5) true rfl rfl (Or.inl (by decide))
    (by decide)

/-- C8: an attachment whose declared size is below the configured minimum
for its media class (video vs image, each class with its own bounds) never
passes the gate of `processAttachments`, so `downloadAttachment` never runs
for it and no file is written: the pipeline state is unchanged. -/
theorem below_min_size_never_written (cfg : Config) (st : PipelineState α)
    (att : Attachment) (filepath filename : String) (transferOk : Bool)
    (hashOutcome : Outcome α) (queryOk : Bool) (statOutcome : Outcome Nat)
    (upsertOk : Bool)
    (hsmall : att.size < (if FileUtils.isVideoFile att.filename att.contentType
      then cfg.minVideoSize else cfg.minImageSize)) :
    processDecision cfg att ≠ .download
    ∧ processOne cfg st att filepath filename transferOk hashOutcome queryOk
        statOutcome upsertOk = (st, none) := by
  have hnotdl : processDecision cfg att ≠ .download := by
    unfold processDecision
    by_cases hm : FileUtils.isMediaFile att.filename att.contentType = true
    · have hvalid : cfg.isFileSizeValid att.size
          (FileUtils.isVideoFile att.filename att.contentType) = false := by
        unfold Config.isFileSizeValid
        cases hv : FileUtils.isVideoFile att.filename att.contentType
        · rw [hv] at hsmall
          simp at hsmall
          have hfalse : (cfg.minImageSize ≤ att.size) = False := by
            simp; omega
          simp [hfalse]
        · rw [hv] at hsmall
          simp at hsmall
          have hfalse : (cfg.minVideoSize ≤ att.size) = False := by
            simp; omega
          simp [hfalse]
      simp [hm, hvalid]
    · simp [hm]
  refine ⟨hnotdl, ?_⟩
  cases hd : processDecision cfg att
  · simp [processOne, hd]
  · simp [processOne, hd]
  · exact absurd hd hnotdl

/-- Closed witness for `below_min_size_never_written`: the spec's scenario —
a 200-byte `image/png` attachment with `MIN_IMAGE_SIZE = 1000`. -/
theorem below_min_size_never_written_witness :
    processDecision ⟨"t", ["12345678901234567"], [], 1000, 52428800, 0, 524288000⟩
      ⟨"https://cdn/a.png", "a.png", some "image/png", 200⟩ ≠ .download
    ∧ processOne (α := Nat)
      ⟨"t", ["12345678901234567"], [], 1000, 52428800, 0, 524288000⟩
      ⟨[], DuplicateDetectionService.ServiceState.fresh 10 []⟩
      ⟨"https://cdn/a.png", "a.png", some "image/png", 200⟩
      "2024/01/01/a.png" "a.png" true (.ok 7) true (.ok 200) true
      = (⟨[], DuplicateDetectionService.ServiceState.fresh 10 []⟩, none) :=
  below_min_size_never_written
    ⟨"t", ["12345678901234567"], [], 1000, 52428800, 0, 524288000⟩
    ⟨[], DuplicateDetectionService.ServiceState.fresh 10 []⟩
    ⟨"https://cdn/a.png", "a.png", some "image/png", 200⟩
    "2024/01/01/a.png" "a.png" true (.ok 7) true (.ok 200) true
    (by decide)

end MediaProcessor

namespace DiscordClient

/-- C10: sending a heartbeat is a no-op unless the socket reference is set
and its readyState is OPEN: in every other state, neither the repeating
timer callback (`sendHeartbeat`) nor the opcode-1 heartbeat-request handler
transmits a frame. -/
theorem heartbeat_noop_unless_socket_open (cfg : Config) (s : ClientState)
    (seq : Option Int)
    (h : ¬ (s.wsSet = true ∧ s.readyState = .openState)) :
    sendHeartbeat s = []
    ∧ (handleMessage cfg s ⟨.heartbeatRequest, seq⟩).2 = [] := by
  have hsh : sendHeartbeat s = [] := by
    unfold sendHeartbeat
    rw [if_neg h]
  refine ⟨hsh, ?_⟩
  cases seq with
  | none => exact hsh
  | some v =>
    show sendHeartbeat { s with sequenceNumber := some v } = []
    unfold sendHeartbeat
    rw [if_neg (fun hc => h ⟨hc.1, hc.2⟩)]

/-- Closed witness for `heartbeat_noop_unless_socket_open`: no socket yet. -/
theorem heartbeat_noop_unless_socket_open_witness :
    sendHeartbeat ⟨false, .connecting, false, none, none⟩ = []
    ∧ (handleMessage ⟨"t", [], [], 0, 0, 0, 0⟩
        ⟨false, .connecting, false, none, none⟩
        ⟨.heartbeatRequest, none⟩).2 = [] :=
  heartbeat_noop_unless_socket_open ⟨"t", [], [], 0, 0, 0, 0⟩
    ⟨false, .connecting, false, none, none⟩ none (by decide)

/-- C4 counterexample: at a concrete closed socket with a live heartbeat
timer, the close handler leaves the heartbeat timer set — it does not cancel
it, so a heartbeat timer exists while the socket is closed, refuting the
claimed cancellation and the claimed invariant. -/
theorem close_handler_keeps_heartbeat_timer :
    ¬ ((onClose (socketClosed ⟨true, .openState, true, none, none⟩)).1.heartbeatTimer
        = false)
    ∧ (onClose (socketClosed ⟨true, .openState, true, none, none⟩)).1.readyState
        = .closed := by
  decide

/-- C4 amended: on every socket close the handler schedules a reconnect
after the configured 5000 ms backoff, regardless of cause; the heartbeat
timer is left unchanged (it is cancelled only by `startHeartbeat` on the
next hello, or by `cleanup`), and a surviving timer transmits nothing while
the socket is closed because of the OPEN guard in `sendHeartbeat`. -/
theorem onClose_schedules_reconnect_keeps_timer (s : ClientState) :
    (onClose s).2 = [Action.scheduleConnect Config.getReconnectDelay]
    ∧ Config.getReconnectDelay = 5000
    ∧ (onClose s).1.heartbeatTimer = s.heartbeatTimer
    ∧ sendHeartbeat (socketClosed s) = [] := by
  refine ⟨rfl, rfl, rfl, ?_⟩
  unfold sendHeartbeat socketClosed
  rw [if_neg]
  intro hc
  simpa using hc.2

/-- C5 counterexample: from a connected client, `cleanup` closes the socket;
the still-attached close handler then fires on the resulting close event and
schedules a reconnect — a connect sequence is initiated after `cleanup`,
refuting "never reconnects". -/
theorem cleanup_close_event_schedules_reconnect :
    (cleanup ⟨true, .openState, true, none, none⟩).2 = [Action.closeSocket]
    ∧ (onClose (socketClosed
        (cleanup ⟨true, .openState, true, none, none⟩).1)).2
      = [Action.scheduleConnect 5000] := by
  decide

/-- C5 amended: `cleanup` does cancel the heartbeat timer and close the
socket (when set), but it is not terminal: the close handler remains
attached, so the close event it provokes schedules a reconnect after the
backoff delay; the client stays down only because the process exits. -/
theorem cleanup_cancels_timer_and_closes (s : ClientState) :
    (cleanup s).1.heartbeatTimer = false
    ∧ (s.wsSet = true → (cleanup s).2 = [Action.closeSocket])
    ∧ (onClose (socketClosed (cleanup s).1)).2
        = [Action.scheduleConnect Config.getReconnectDelay] := by
  refine ⟨?_, ?_, rfl⟩
  · unfold cleanup
    by_cases h : s.heartbeatTimer = true
    · simp [h]
    · simp only [if_neg h]
      exact Bool.not_eq_true s.heartbeatTimer ▸ h
  · intro hws
    unfold cleanup
    by_cases h : s.heartbeatTimer = true <;> simp [h, hws]

/-- C6 counterexample: on `hello{heartbeat_interval:45000}` with token
`"abc"`, the handler's synchronous action list already contains the identify
frame and no delayed identify scheduling: identify is sent immediately, not
~2000 ms after hello. -/
theorem hello_sends_identify_immediately :
    (handleMessage ⟨"abc", [], [], 0, 0, 0, 0⟩
        ⟨true, .openState, false, none, none⟩ ⟨.hello 45000, none⟩).2
      = [Action.startHeartbeatTimer 45000, Action.send (.identify "abc" 33281)]
    ∧ Action.scheduleIdentify 2000 ∉
      (handleMessage ⟨"abc", [], [], 0, 0, 0, 0⟩
        ⟨true, .openState, false, none, none⟩ ⟨.hello 45000, none⟩).2 := by
  decide

/-- C6 amended: on hello the client starts the heartbeat timer and sends the
identify frame synchronously (when the socket reference is set); the 2000 ms
`getIdentifyDelay` is applied only to the re-identify scheduled after an
invalid-session frame. -/
theorem hello_identify_timing (cfg : Config) (s : ClientState)
    (interval : Nat) (seq : Option Int) :
    (handleMessage cfg s ⟨.hello interval, seq⟩).2
      = Action.startHeartbeatTimer interval ::
        (if s.wsSet = true then
          [Action.send (.identify cfg.token Config.getDiscordIntents)] else [])
    ∧ (handleMessage cfg s ⟨.invalidSession, seq⟩).2
        = [Action.scheduleIdentify Config.getIdentifyDelay]
    ∧ Config.getIdentifyDelay = 2000 := by
  refine ⟨?_, ?_, rfl⟩
  · unfold handleMessage startHeartbeat identifyActions
    cases seq <;> simp
  · unfold handleMessage
    cases seq <;> simp

/-- C7 (failing input): a MESSAGE_CREATE in a monitored channel whose author
id is in the configured blacklist is still handed to the media pipeline:
`handleDispatch` checks only the channel and the attachment count and never
consults `Config.isUserBlacklisted`. -/
theorem blacklisted_author_still_forwarded :
    Config.isUserBlacklisted
        ⟨"t", ["12345678901234567"], ["98765432109876543"], 0, 0, 0, 0⟩
        "98765432109876543" = true
    ∧ (handleDispatch
        ⟨"t", ["12345678901234567"], ["98765432109876543"], 0, 0, 0, 0⟩
        ⟨true, .openState, true, none, none⟩
        (.messageCreate "12345678901234567" "98765432109876543" "spammer"
          [⟨"https://cdn/a.png", "a.png", some "image/png", 50000⟩]
          "2024-05-01T10:00:00.000Z")).2
      = [Action.processAttachments
          [⟨"https://cdn/a.png", "a.png", some "image/png", 50000⟩] "spammer"
          "2024-05-01T10:00:00.000Z"] := by
  decide

end DiscordClient

end DiscordMediaSaver
